import Mathlib

/-!
Shallow embedding of the RcloneTray startup/shutdown orchestrator
(`src/app.js` and `src/app-quit.js`) and proofs about it.

JavaScript objects whose shape matters here (option sections, bookmark
configurations) are embedded as association lists `List (String × α)`
read through `List.lookup`; the object-literal spread `{ ...base, ...upd }`
is embedded as `spread`, which overwrites existing keys in place and
appends fresh keys at the end, exactly the key/value semantics of the
JavaScript spread.
-/

namespace RcloneTray

/-- Choice between two optional values, first one winning: the value an
object lookup yields when a key may come from either of two objects. -/
def orO (a b : Option α) : Option α :=
  match a with
  | some x => some x
  | none => b

/-- JavaScript single-property assignment `o[k] = v` on an object embedded
as an association list: an existing key keeps its position and gets the new
value, a fresh key is appended at the end. -/
def setKey (o : List (String × α)) (k : String) (v : α) : List (String × α) :=
  if o.any (fun p => p.1 = k) then
    o.map (fun p => if p.1 = k then (k, v) else p)
  else
    o ++ [(k, v)]

/-- JavaScript object spread `{ ...base, ...upd }`: every property of `upd`
is assigned over `base`, later properties winning. -/
def spread (base upd : List (String × α)) : List (String × α) :=
  upd.foldl (fun acc p => setKey acc p.1 p.2) base

/-- Scalar option values occurring in the rclone option sections. -/
inductive Scalar where
  | str (s : String)
  | num (n : Int)
  | bool (b : Bool)
deriving DecidableEq, Repr

/-- One named option section (`vfs` or `mount`): a map from option name to
scalar value. -/
abbrev OptSection := List (String × Scalar)

/-- The top-level options object passed to `rclone.setOptions`: a map from
section name to section. -/
abbrev ConfigOptions := List (String × OptSection)

/-- The built-in `vfs` defaults from the `ready` handler in `src/app.js`. -/
def defaultVfsOptions : OptSection :=
  [("Timeout", .num 10),
   ("DirCacheTime", .num 3),
   ("ReadOnly", .bool true),
   ("CachePollInterval", .num 10000),
   ("PollInterval", .num 10000)]

/-- The built-in `mount` defaults from the `ready` handler in `src/app.js`. -/
def defaultMountOptions : OptSection :=
  [("NoAppleDouble", .bool true),
   ("NoAppleXattr", .bool true),
   ("AllowNonEmpty", .bool false),
   ("Daemon", .bool false),
   ("DebugFUSE", .bool false)]

/-- The object literal `{ vfs: {...}, mount: {...} }` of built-in defaults. -/
def builtinDefaultOptions : ConfigOptions :=
  [("vfs", defaultVfsOptions), ("mount", defaultMountOptions)]

/-- The argument built by the `ready` handler in `src/app.js`:
`{ vfs: {...defaults}, mount: {...defaults}, ...config.get('rclone_options') }`.
The user overrides are spread at the TOP level, so they act section-by-section. -/
def mergedOptions (overrides : ConfigOptions) : ConfigOptions :=
  spread builtinDefaultOptions overrides

/-! Lookup lemmas for `setKey` and `spread`. -/

theorem lookup_cons_self (k : String) (b : α) (es : List (String × α)) :
    List.lookup k ((k, b) :: es) = some b := by
  simp [List.lookup_cons]

theorem lookup_cons_ne (k a : String) (b : α) (es : List (String × α))
    (h : k ≠ a) : List.lookup k ((a, b) :: es) = List.lookup k es := by
  have hb : (k == a) = false := beq_eq_false_iff_ne.mpr h
  simp [List.lookup_cons, hb]

theorem lookup_eq_none_of_any_eq_false (o : List (String × α)) (k : String)
    (h : o.any (fun p => p.1 = k) = false) : List.lookup k o = none := by
  induction o with
  | nil => rfl
  | cons p rest ih =>
    cases p with
    | mk a b =>
      simp only [List.any_cons, Bool.or_eq_false_iff, decide_eq_false_iff_not] at h
      rw [lookup_cons_ne k a b rest (fun hk => h.1 hk.symm)]
      exact ih h.2

theorem lookup_map_replace_self (o : List (String × α)) (k : String) (v : α)
    (h : o.any (fun p => p.1 = k) = true) :
    List.lookup k (o.map (fun p => if p.1 = k then (k, v) else p)) = some v := by
  induction o with
  | nil => simp at h
  | cons p rest ih =>
    cases p with
    | mk a b =>
      simp only [List.any_cons, Bool.or_eq_true, decide_eq_true_eq] at h
      by_cases hk : a = k
      · simp only [List.map_cons, if_pos (show (a, b).1 = k from hk)]
        exact lookup_cons_self k v _
      · have h' : rest.any (fun p => p.1 = k) = true := by
          rcases h with h | h
          · exact absurd h hk
          · exact h
        simp only [List.map_cons, if_neg (show ¬(a, b).1 = k from hk)]
        rw [lookup_cons_ne k a b _ (fun hk' => hk hk'.symm)]
        exact ih h'

theorem lookup_map_replace_ne (o : List (String × α)) (k : String) (v : α)
    (k' : String) (h : k' ≠ k) :
    List.lookup k' (o.map (fun p => if p.1 = k then (k, v) else p)) =
      List.lookup k' o := by
  induction o with
  | nil => rfl
  | cons p rest ih =>
    cases p with
    | mk a b =>
      by_cases hk : a = k
      · simp only [List.map_cons, if_pos (show (a, b).1 = k from hk)]
        rw [lookup_cons_ne k' k v _ h, lookup_cons_ne k' a b rest (hk ▸ h)]
        exact ih
      · simp only [List.map_cons, if_neg (show ¬(a, b).1 = k from hk)]
        by_cases hka : k' = a
        · subst hka
          rw [lookup_cons_self, lookup_cons_self]
        · rw [lookup_cons_ne k' a b _ hka, lookup_cons_ne k' a b rest hka]
          exact ih

theorem lookup_append_single_self (o : List (String × α)) (k : String) (v : α)
    (h : List.lookup k o = none) :
    List.lookup k (o ++ [(k, v)]) = some v := by
  induction o with
  | nil => exact lookup_cons_self k v []
  | cons p rest ih =>
    cases p with
    | mk a b =>
      by_cases hka : k = a
      · subst hka
        rw [lookup_cons_self] at h
        exact absurd h (by simp)
      · rw [lookup_cons_ne k a b rest hka] at h
        rw [List.cons_append, lookup_cons_ne k a b _ hka]
        exact ih h

theorem lookup_append_single_ne (o : List (String × α)) (k : String) (v : α)
    (k' : String) (h : k' ≠ k) :
    List.lookup k' (o ++ [(k, v)]) = List.lookup k' o := by
  induction o with
  | nil => exact lookup_cons_ne k' k v [] h
  | cons p rest ih =>
    cases p with
    | mk a b =>
      by_cases hka : k' = a
      · subst hka
        rw [List.cons_append, lookup_cons_self, lookup_cons_self]
      · rw [List.cons_append, lookup_cons_ne k' a b _ hka,
          lookup_cons_ne k' a b rest hka]
        exact ih

theorem lookup_setKey_self (o : List (String × α)) (k : String) (v : α) :
    List.lookup k (setKey o k v) = some v := by
  unfold setKey
  by_cases h : o.any (fun p => p.1 = k) = true
  · rw [if_pos h]; exact lookup_map_replace_self o k v h
  · rw [if_neg h]
    exact lookup_append_single_self o k v
      (lookup_eq_none_of_any_eq_false o k (Bool.eq_false_iff.mpr h))

theorem lookup_setKey_ne (o : List (String × α)) (k : String) (v : α)
    (k' : String) (h : k' ≠ k) :
    List.lookup k' (setKey o k v) = List.lookup k' o := by
  unfold setKey
  by_cases hc : o.any (fun p => p.1 = k) = true
  · rw [if_pos hc]; exact lookup_map_replace_ne o k v k' h
  · rw [if_neg hc]; exact lookup_append_single_ne o k v k' h

theorem lookup_spread_of_not_key (upd : List (String × α)) (base : List (String × α))
    (k : String) (h : ∀ p ∈ upd, p.1 ≠ k) :
    List.lookup k (spread base upd) = List.lookup k base := by
  induction upd generalizing base with
  | nil => rfl
  | cons q rest ih =>
    have : List.lookup k (spread (setKey base q.1 q.2) rest) =
        List.lookup k (setKey base q.1 q.2) :=
      ih (setKey base q.1 q.2) (fun p hp => h p (List.mem_cons_of_mem q hp))
    calc List.lookup k (spread base (q :: rest))
        = List.lookup k (spread (setKey base q.1 q.2) rest) := rfl
      _ = List.lookup k (setKey base q.1 q.2) := this
      _ = List.lookup k base :=
          lookup_setKey_ne base q.1 q.2 k (fun hk => h q (List.mem_cons_self q rest) hk.symm)

theorem lookup_spread (upd : List (String × α)) (h : (upd.map Prod.fst).Nodup)
    (base : List (String × α)) (k : String) :
    List.lookup k (spread base upd) = orO (List.lookup k upd) (List.lookup k base) := by
  induction upd generalizing base with
  | nil => rfl
  | cons q rest ih =>
    cases q with
    | mk a v =>
      rw [List.map_cons, List.nodup_cons] at h
      by_cases hk : k = a
      · subst hk
        have hrest : ∀ p ∈ rest, p.1 ≠ k := by
          intro p hp hpk
          have hm := List.mem_map_of_mem Prod.fst hp
          rw [hpk] at hm
          exact h.1 hm
        have hleft : List.lookup k (spread base ((k, v) :: rest)) = some v := by
          calc List.lookup k (spread base ((k, v) :: rest))
              = List.lookup k (spread (setKey base k v) rest) := rfl
            _ = List.lookup k (setKey base k v) :=
                lookup_spread_of_not_key rest (setKey base k v) k hrest
            _ = some v := lookup_setKey_self base k v
        rw [hleft, lookup_cons_self]
        rfl
      · rw [lookup_cons_ne k a v rest hk]
        calc List.lookup k (spread base ((a, v) :: rest))
            = List.lookup k (spread (setKey base a v) rest) := rfl
          _ = orO (List.lookup k rest) (List.lookup k (setKey base a v)) :=
              ih h.2 (setKey base a v)
          _ = orO (List.lookup k rest) (List.lookup k base) := by
              rw [lookup_setKey_ne base a v k hk]

/-- Concrete user overrides exercising the merge: the user sets exactly one
`vfs` option. -/
def sampleOverrides : ConfigOptions := [("vfs", [("ReadOnly", Scalar.bool false)])]

/-- C1 counterexample: with overrides `{ vfs: { ReadOnly: false } }` the merged
options have the whole `vfs` section replaced, so the built-in default
`Timeout = 10` — a key absent from the overrides — is LOST, not retained:
the top-level spread in `src/app.js` merges section-by-section, not key-by-key
inside each section. -/
theorem mergedOptions_not_keywise_cex :
    List.lookup "vfs" (mergedOptions sampleOverrides) =
      some [("ReadOnly", Scalar.bool false)]
    ∧ List.lookup "Timeout" defaultVfsOptions = some (Scalar.num 10)
    ∧ List.lookup "Timeout"
        ((List.lookup "vfs" (mergedOptions sampleOverrides)).getD []) = none := by
  refine ⟨?_, ?_, ?_⟩ <;> rfl

/-- C1 (amended): the merge applied via `setOptions` on `ready` is
section-by-section: for every top-level key, an override section present under
that key wholesale replaces the built-in section, and a key absent from the
overrides retains its entire built-in default section. -/
theorem mergedOptions_sectionwise (overrides : ConfigOptions)
    (h : (overrides.map Prod.fst).Nodup) (k : String) :
    List.lookup k (mergedOptions overrides) =
      orO (List.lookup k overrides) (List.lookup k builtinDefaultOptions) :=
  lookup_spread overrides h builtinDefaultOptions k

/-- Witness for `mergedOptions_sectionwise` at the concrete overrides
`{ vfs: { ReadOnly: false } }`. -/
theorem mergedOptions_sectionwise_witness :
    List.lookup "vfs" (mergedOptions sampleOverrides) =
      orO (List.lookup "vfs" sampleOverrides)
        (List.lookup "vfs" builtinDefaultOptions) :=
  mergedOptions_sectionwise sampleOverrides (by decide) "vfs"

/-! Bookmarks and startup reconciliation (`ready` handler in `src/app.js`). -/

/-- A bookmark: a named resource with an arbitrary string key/value
configuration mapping, as returned by `rclone.getBookmarks()`. -/
structure Bookmark where
  entries : List (String × String)
deriving DecidableEq, Repr

/-- Property access `bookmarkConfig[key]` on a bookmark configuration. -/
def bookmarkGet (b : Bookmark) (k : String) : Option String :=
  List.lookup k b.entries

/-- JavaScript truthiness of an optional string-valued property: an absent
property is falsy, a present string is truthy exactly when non-empty. -/
def truthy : Option String → Bool
  | none => false
  | some s => s != ""

/-- Modelled from the spec: the custom key names live in
`RCLONETRAY_CONFIG.CUSTOM_KEYS` of `services/rclone.js`, which is outside the
two orchestrator source files; the spec names this one `autoMount`
(boolean-as-string). -/
def autoMountKey : String := "autoMount"

/-- Modelled from the spec: the `pullOnStart` custom key
(boolean-as-string), see `autoMountKey`. -/
def pullOnStartKey : String := "pullOnStart"

/-- Modelled from the spec: the `localDirectory` custom key (path string,
required for pull to be valid), see `autoMountKey`. -/
def localDirectoryKey : String := "localDirectory"

/-- The mount condition of the `ready` reconciliation handler:
`bookmarkConfig[CUSTOM_KEYS.autoMount] === 'true'`. -/
def mountFlag (b : Bookmark) : Bool :=
  bookmarkGet b autoMountKey == some "true"

/-- The pull condition of the `ready` reconciliation handler:
`bookmarkConfig[CUSTOM_KEYS.pullOnStart] === 'true' &&
bookmarkConfig[CUSTOM_KEYS.localDirectory]` (the latter a truthiness test). -/
def pullFlag (b : Bookmark) : Bool :=
  (bookmarkGet b pullOnStartKey == some "true")
    && truthy (bookmarkGet b localDirectoryKey)

/-- An action invocation requested during reconciliation. -/
inductive Action where
  | mount (name : String)
  | pull (name : String)
deriving DecidableEq, Repr

/-- The actions the loop body of the `ready` reconciliation handler invokes
for one bookmark: `mount` when `mountFlag`, then `pull` when `pullFlag`. -/
def bookmarkActions (n : String) (b : Bookmark) : List Action :=
  (if mountFlag b then [Action.mount n] else [])
    ++ (if pullFlag b then [Action.pull n] else [])

/-- All actions invoked by the `ready` reconciliation handler over the
fetched bookmark set, in `Object.entries` order. -/
def reconcileActions (bs : List (String × Bookmark)) : List Action :=
  bs.flatMap (fun p => bookmarkActions p.1 p.2)

theorem count_mount_bookmarkActions (n m : String) (b : Bookmark) :
    (bookmarkActions m b).count (Action.mount n) =
      if m = n ∧ mountFlag b then 1 else 0 := by
  unfold bookmarkActions
  rw [List.count_append]
  have hpull : (if pullFlag b then [Action.pull m] else []).count (Action.mount n) = 0 := by
    by_cases hp : pullFlag b <;> simp [hp]
  rw [hpull]
  by_cases hm : mountFlag b
  · by_cases hmn : m = n
    · subst hmn; simp [hm]
    · simp [hm, hmn, List.count_singleton]
  · simp [hm, fun h : m = n ∧ mountFlag b = true => hm h.2]

theorem count_pull_bookmarkActions (n m : String) (b : Bookmark) :
    (bookmarkActions m b).count (Action.pull n) =
      if m = n ∧ pullFlag b then 1 else 0 := by
  unfold bookmarkActions
  rw [List.count_append]
  have hmount : (if mountFlag b then [Action.mount m] else []).count (Action.pull n) = 0 := by
    by_cases hm : mountFlag b <;> simp [hm]
  rw [hmount]
  by_cases hp : pullFlag b
  · by_cases hmn : m = n
    · subst hmn; simp [hp]
    · simp [hp, hmn, List.count_singleton]
  · simp [hp, fun h : m = n ∧ pullFlag b = true => hp h.2]

theorem count_mount_reconcile (bs : List (String × Bookmark)) (n : String) :
    (reconcileActions bs).count (Action.mount n) =
      (bs.filter (fun p => p.1 = n ∧ mountFlag p.2)).length := by
  induction bs with
  | nil => rfl
  | cons p rest ih =>
    have hstep : reconcileActions (p :: rest) =
        bookmarkActions p.1 p.2 ++ reconcileActions rest := rfl
    rw [hstep, List.count_append, count_mount_bookmarkActions, ih]
    by_cases hc : p.1 = n ∧ mountFlag p.2
    · rw [if_pos hc, List.filter_cons, if_pos (by simpa using hc)]
      simp [Nat.add_comm]
    · rw [if_neg hc, List.filter_cons, if_neg (by simpa using hc)]
      simp

theorem count_pull_reconcile (bs : List (String × Bookmark)) (n : String) :
    (reconcileActions bs).count (Action.pull n) =
      (bs.filter (fun p => p.1 = n ∧ pullFlag p.2)).length := by
  induction bs with
  | nil => rfl
  | cons p rest ih =>
    have hstep : reconcileActions (p :: rest) =
        bookmarkActions p.1 p.2 ++ reconcileActions rest := rfl
    rw [hstep, List.count_append, count_pull_bookmarkActions, ih]
    by_cases hc : p.1 = n ∧ pullFlag p.2
    · rw [if_pos hc, List.filter_cons, if_pos (by simpa using hc)]
      simp [Nat.add_comm]
    · rw [if_neg hc, List.filter_cons, if_neg (by simpa using hc)]
      simp

theorem filter_flag_len_of_not_mem (bs : List (String × Bookmark)) (n : String)
    (flag : Bookmark → Bool) (h : n ∉ bs.map Prod.fst) :
    (bs.filter (fun p => p.1 = n ∧ flag p.2)).length = 0 := by
  induction bs with
  | nil => rfl
  | cons p rest ih =>
    rw [List.map_cons, List.mem_cons] at h
    push_neg at h
    rw [List.filter_cons, if_neg (by
      simp only [decide_eq_true_eq]
      exact fun hc => h.1 hc.1.symm)]
    exact ih h.2

theorem filter_flag_len_nodup (bs : List (String × Bookmark))
    (h : (bs.map Prod.fst).Nodup) (n : String) (b : Bookmark)
    (hb : (n, b) ∈ bs) (flag : Bookmark → Bool) :
    (bs.filter (fun p => p.1 = n ∧ flag p.2)).length = if flag b then 1 else 0 := by
  induction bs with
  | nil => simp at hb
  | cons p rest ih =>
    rw [List.map_cons, List.nodup_cons] at h
    rw [List.mem_cons] at hb
    rcases hb with hb | hb
    · subst hb
      have hrest : n ∉ rest.map Prod.fst := h.1
      rw [List.filter_cons]
      by_cases hf : flag b
      · rw [if_pos (by simp [hf]), List.length_cons,
          filter_flag_len_of_not_mem rest n flag hrest, if_pos hf]
      · rw [if_neg (by simp [hf]),
          filter_flag_len_of_not_mem rest n flag hrest, if_neg hf]
    · have hne : p.1 ≠ n := by
        intro hc
        have hm := List.mem_map_of_mem Prod.fst hb
        exact h.1 (by simpa [hc] using hm)
      rw [List.filter_cons, if_neg (by simp [hne])]
      exact ih h.2 hb

/-- Bookmark `A` of the spec scenario: `{autoMount: "true"}`. -/
def bookmarkA : Bookmark := ⟨[(autoMountKey, "true")]⟩

/-- Bookmark `B` of the spec scenario:
`{pullOnStart: "true", localDirectory: "/x"}`. -/
def bookmarkB : Bookmark := ⟨[(pullOnStartKey, "true"), (localDirectoryKey, "/x")]⟩

/-- Bookmark `C` of the spec scenario: `{}`. -/
def bookmarkC : Bookmark := ⟨[]⟩

/-- The bookmark set of the spec scenario. -/
def demoBookmarks : List (String × Bookmark) :=
  [("A", bookmarkA), ("B", bookmarkB), ("C", bookmarkC)]

/-- C3: over any bookmark set with unique names (as `Object.entries` of a
JavaScript object always yields), reconciliation invokes `mount` exactly once
on every bookmark whose `autoMount` custom key equals the string `"true"` and
zero times on every other bookmark; every `mount` invocation names a fetched
bookmark with that flag; and the count is invariant under permuting the
bookmark set (independent of invocation order). -/
theorem reconcile_mount_exact (bs : List (String × Bookmark))
    (h : (bs.map Prod.fst).Nodup) :
    (∀ n b, (n, b) ∈ bs →
      (reconcileActions bs).count (Action.mount n) =
        if mountFlag b then 1 else 0)
    ∧ (∀ n, Action.mount n ∈ reconcileActions bs →
        ∃ b, (n, b) ∈ bs ∧ mountFlag b = true)
    ∧ (∀ bs', bs.Perm bs' → ∀ n,
        (reconcileActions bs').count (Action.mount n) =
          (reconcileActions bs).count (Action.mount n)) := by
  refine ⟨?_, ?_, ?_⟩
  · intro n b hb
    rw [count_mount_reconcile]
    exact filter_flag_len_nodup bs h n b hb mountFlag
  · intro n hmem
    have hpos : 0 < (reconcileActions bs).count (Action.mount n) :=
      List.count_pos_iff.mpr hmem
    rw [count_mount_reconcile] at hpos
    obtain ⟨p, hp⟩ := List.exists_mem_of_length_pos hpos
    have hp' := List.mem_filter.mp hp
    have hcond : p.1 = n ∧ mountFlag p.2 = true := by
      simpa using hp'.2
    refine ⟨p.2, ?_, hcond.2⟩
    have : p = (n, p.2) := by
      cases p with
      | mk a b => simp [hcond.1.symm]
    exact this ▸ hp'.1
  · intro bs' hperm n
    rw [count_mount_reconcile, count_mount_reconcile]
    exact (List.Perm.length_eq (hperm.filter _)).symm

/-- Witness for `reconcile_mount_exact` at the spec scenario: bookmark `A`
with `autoMount = "true"` is mounted exactly once. -/
theorem reconcile_mount_exact_witness :
    (reconcileActions demoBookmarks).count (Action.mount "A") =
      if mountFlag bookmarkA then 1 else 0 :=
  (reconcile_mount_exact demoBookmarks (by decide)).1 "A" bookmarkA (by decide)

/-- C4: over any bookmark set with unique names, reconciliation invokes
`pull` exactly once on every bookmark whose `pullOnStart` custom key equals
the string `"true"` and whose `localDirectory` custom key is a non-empty
value, zero times on every other bookmark; a bookmark satisfying both flags
triggers both `mount` and `pull`; and a bookmark satisfying neither triggers
no action at all. -/
theorem reconcile_pull_exact (bs : List (String × Bookmark))
    (h : (bs.map Prod.fst).Nodup) :
    (∀ n b, (n, b) ∈ bs →
      (reconcileActions bs).count (Action.pull n) =
        if pullFlag b then 1 else 0)
    ∧ (∀ n b, (n, b) ∈ bs → mountFlag b = true → pullFlag b = true →
        Action.mount n ∈ reconcileActions bs ∧
          Action.pull n ∈ reconcileActions bs)
    ∧ (∀ n b, (n, b) ∈ bs → mountFlag b = false → pullFlag b = false →
        (reconcileActions bs).count (Action.mount n) = 0 ∧
          (reconcileActions bs).count (Action.pull n) = 0) := by
  refine ⟨?_, ?_, ?_⟩
  · intro n b hb
    rw [count_pull_reconcile]
    exact filter_flag_len_nodup bs h n b hb pullFlag
  · intro n b hb hm hp
    constructor
    · apply List.count_pos_iff.mp
      rw [count_mount_reconcile, filter_flag_len_nodup bs h n b hb mountFlag, if_pos hm]
      exact Nat.zero_lt_one
    · apply List.count_pos_iff.mp
      rw [count_pull_reconcile, filter_flag_len_nodup bs h n b hb pullFlag, if_pos hp]
      exact Nat.zero_lt_one
  · intro n b hb hm hp
    constructor
    · rw [count_mount_reconcile, filter_flag_len_nodup bs h n b hb mountFlag, if_neg (by simp [hm])]
    · rw [count_pull_reconcile, filter_flag_len_nodup bs h n b hb pullFlag, if_neg (by simp [hp])]

/-- Witness for `reconcile_pull_exact` at the spec scenario: bookmark `B`
with `pullOnStart = "true"` and `localDirectory = "/x"` is pulled exactly
once. -/
theorem reconcile_pull_exact_witness :
    (reconcileActions demoBookmarks).count (Action.pull "B") =
      if pullFlag bookmarkB then 1 else 0 :=
  (reconcile_pull_exact demoBookmarks (by decide)).1 "B" bookmarkB (by decide)

/-! The `ready` event cycle: the options handler and the (independent)
bookmark reconciliation handler of `src/app.js`. -/

/-- Combined outcome of one `ready` cycle: the argument the first handler
passes to `rclone.setOptions`, the actions the reconciliation handler
invokes, and the warnings it logs. The two handlers are independent
subscribers, so the reconciliation part depends only on the bookmark fetch
result. -/
structure ReadyOutcome where
  appliedOptions : ConfigOptions
  actions : List Action
  warnings : List String
deriving DecidableEq

/-- One `ready` cycle, given the user overrides read from
`config.get('rclone_options')` and the result of `rclone.getBookmarks()`:
the options handler applies the merged options; the reconciliation handler
wraps the fetch and the whole loop in one `try`, logging the warning
`logger.warn('Cannot fetch bookmarks upon start.', error.toString())` and
skipping all actions when the fetch failed. -/
def onReady (overrides : ConfigOptions)
    (fetched : Except String (List (String × Bookmark))) : ReadyOutcome :=
  { appliedOptions := mergedOptions overrides
  , actions :=
      match fetched with
      | .ok bs => reconcileActions bs
      | .error _ => []
  , warnings :=
      match fetched with
      | .ok _ => []
      | .error e => ["Cannot fetch bookmarks upon start. " ++ e] }

/-- C7: when the bookmark fetch of a `ready` cycle fails, no mount or pull
invocation occurs in that cycle, exactly one warning is logged (the handler
makes a single fetch attempt, no retry), and the argument applied via
`setOptions` is the same as in any cycle with the same overrides — the
fetch failure does not affect the options step. -/
theorem ready_fetch_failure (overrides : ConfigOptions) (e : String) :
    (onReady overrides (.error e)).actions = []
    ∧ (onReady overrides (.error e)).warnings =
        ["Cannot fetch bookmarks upon start. " ++ e]
    ∧ ∀ fetched, (onReady overrides fetched).appliedOptions =
        (onReady overrides (.error e)).appliedOptions :=
  ⟨rfl, rfl, fun _ => rfl⟩

/-! The `error` event notification handler of `src/app.js`. -/

/-- An `error` lifecycle event as consumed by the notification handler:
`error` is the `error.error.toString()` text; `reason` is the optional
`error.reason` value, absent (`none`) or present (`some` of its
`toString()` text). Modelled from the spec: the payload shape
`error{error, reason?}` comes from `services/rclone.js`, outside the two
orchestrator source files; a present `reason` is an object and hence truthy,
so the handler's `error.reason ?` test is a presence test. -/
structure RcloneErrorEvent where
  error : String
  reason : Option String
deriving DecidableEq

/-- The notification message built by the `error` handler:
`error.error.toString() + (error.reason ? '\n' + error.reason.toString() : '')`. -/
def errorNotificationMessage (ev : RcloneErrorEvent) : String :=
  ev.error ++
    match ev.reason with
    | some r => "\n" ++ r
    | none => ""

/-- C8: for every `error` event, the notification message equals the error
text concatenated with a newline and the reason text when a reason is
present, and equals just the error text when the reason is absent. -/
theorem error_notification_message (err r : String) :
    errorNotificationMessage ⟨err, some r⟩ = err ++ ("\n" ++ r)
    ∧ errorNotificationMessage ⟨err, none⟩ = err :=
  ⟨rfl, by simp [errorNotificationMessage]⟩

/-! The shutdown sequencer `appQuit` of `src/app-quit.js`. -/

/-- Observable outcome of one run of `appQuit`: the process exit code, the
warnings printed, and whether `stopRcloneDaemon` was invoked at all. -/
structure QuitOutcome where
  exitCode : Nat
  warnings : List String
  stopDaemonInvoked : Bool
deriving DecidableEq, Repr

/-- The shutdown sequence of `src/app-quit.js`: one `try` block first closes
every window, then awaits `stopRcloneDaemon()`; any throw lands in the
single `catch`, which prints `console.warn('Exit with errors.', ...)` and
exits with code 1; falling through the `try` exits with code 0. The two
arguments are the results of the two fallible steps (the second is only
consumed when the first did not throw). -/
def appQuit (closeWindows stopDaemonResult : Except String Unit) : QuitOutcome :=
  match closeWindows with
  | .error e => ⟨1, ["Exit with errors. " ++ e], false⟩
  | .ok _ =>
    match stopDaemonResult with
    | .error e => ⟨1, ["Exit with errors. " ++ e], true⟩
    | .ok _ => ⟨0, [], true⟩

/-- C6: every run of the shutdown sequence terminates with an exit code;
the code is 0 exactly when both steps (closing the UI surfaces, stopping
the daemon) completed without raising, and when any step raises the process
still exits, with code 1 and a warning logged. -/
theorem appQuit_terminates (closeWindows stopDaemonResult : Except String Unit) :
    ((closeWindows = .ok () ∧ stopDaemonResult = .ok ())
        ∧ (appQuit closeWindows stopDaemonResult).exitCode = 0
        ∧ (appQuit closeWindows stopDaemonResult).warnings = [])
    ∨ (¬(closeWindows = .ok () ∧ stopDaemonResult = .ok ())
        ∧ (appQuit closeWindows stopDaemonResult).exitCode = 1
        ∧ (appQuit closeWindows stopDaemonResult).warnings ≠ []) := by
  cases closeWindows with
  | error e => right; simp [appQuit]
  | ok u =>
    cases u
    cases stopDaemonResult with
    | error e => right; simp [appQuit]
    | ok u => cases u; left; simp [appQuit]

/-- C9: if closing the UI surfaces throws, the single `try` block of
`appQuit` aborts before reaching `stopRcloneDaemon`, so the daemon-stop
call is never invoked — the daemon may be left running — while the process
still exits with code 1. -/
theorem appQuit_close_throw_skips_stop (e : String)
    (stopDaemonResult : Except String Unit) :
    (appQuit (.error e) stopDaemonResult).stopDaemonInvoked = false
    ∧ (appQuit (.error e) stopDaemonResult).exitCode = 1 :=
  ⟨rfl, rfl⟩

/-! Startup orchestration `app()` of `src/app.js` and the
`invalid-config-pass` terminal path. -/

/-- A blocking error prompt as passed to `promptError`. -/
structure PromptSpec where
  title : String
  message : String
deriving DecidableEq, Repr

/-- Observable side effects of the orchestrator, in program order. -/
inductive Effect where
  | installFaultBarrier
  | setAppId
  | setAppName
  | createTray
  | subscribeHandlers
  | logEntry (level : String) (msg : String)
  | showPrompt (p : PromptSpec)
  | exitProcess (code : Nat)
  | callSetupDaemon
  | callStopDaemon
  | runGCStep
deriving DecidableEq, Repr

/-- Modelled from the spec: the product name comes from the package
metadata (`packageJson.productName`), outside the two orchestrator source
files; the application is called RcloneTray. -/
def productName : String := "RcloneTray"

/-- Result of `singleInstanceLock`: success, or a thrown error identified by
its `toString()` text. -/
inductive LockResult where
  | ok
  | err (e : String)
deriving DecidableEq, Repr

/-- The effects of `app()` before the lock is taken: install the
uncaught-exception callback, set the app id on win32/linux only, set the
app name. -/
def preLockEffects (platform : String) : List Effect :=
  Effect.installFaultBarrier ::
    ((if platform = "win32" ∨ platform = "linux" then [Effect.setAppId] else [])
      ++ [Effect.setAppName])

/-- The startup function `app()` of `src/app.js`, abstracted over the
platform string and the single-instance lock result. On lock failure whose
text is exactly `'ALREADY_RUNNING'` it prompts and exits with code 1 (never
reaching `rclone.setupDaemon()`); any other lock failure is re-thrown
(`rethrown`); on success it wires the tray, the config and rclone event
subscriptions, starts the daemon and runs the GC step. -/
def appStartup (platform : String) (lock : LockResult) : List Effect × Option String :=
  match lock with
  | .ok =>
    (preLockEffects platform ++
      [Effect.createTray, Effect.subscribeHandlers,
       Effect.callSetupDaemon, Effect.runGCStep], none)
  | .err e =>
    if e = "ALREADY_RUNNING" then
      (preLockEffects platform ++
        [Effect.showPrompt
          ⟨productName,
           "There is already running instance of " ++ productName ++
             ", cannot start twice."⟩,
         Effect.exitProcess 1], none)
    else
      (preLockEffects platform, some e)

theorem callSetupDaemon_notin_preLock (platform : String) :
    Effect.callSetupDaemon ∉ preLockEffects platform := by
  unfold preLockEffects
  by_cases hp : platform = "win32" ∨ platform = "linux" <;> simp [hp]

theorem showPrompt_notin_preLock (platform : String) (p : PromptSpec) :
    Effect.showPrompt p ∉ preLockEffects platform := by
  unfold preLockEffects
  by_cases hp : platform = "win32" ∨ platform = "linux" <;> simp [hp]

theorem exitProcess_notin_preLock (platform : String) (c : Nat) :
    Effect.exitProcess c ∉ preLockEffects platform := by
  unfold preLockEffects
  by_cases hp : platform = "win32" ∨ platform = "linux" <;> simp [hp]

/-- C5: when the single-instance lock fails with `ALREADY_RUNNING`, the
daemon is never started (`rclone.setupDaemon` is not among the effects), a
user-visible prompt is shown, the process exits with code 1, and nothing is
re-thrown. -/
theorem alreadyRunning_terminal (platform : String) :
    Effect.callSetupDaemon ∉ (appStartup platform (.err "ALREADY_RUNNING")).1
    ∧ (∃ p, Effect.showPrompt p ∈ (appStartup platform (.err "ALREADY_RUNNING")).1)
    ∧ Effect.exitProcess 1 ∈ (appStartup platform (.err "ALREADY_RUNNING")).1
    ∧ (appStartup platform (.err "ALREADY_RUNNING")).2 = none := by
  have hstep : appStartup platform (.err "ALREADY_RUNNING") =
      (preLockEffects platform ++
        [Effect.showPrompt
          ⟨productName,
           "There is already running instance of " ++ productName ++
             ", cannot start twice."⟩,
         Effect.exitProcess 1], none) := by
    simp [appStartup]
  rw [hstep]
  refine ⟨?_,
    ⟨⟨productName,
      "There is already running instance of " ++ productName ++
        ", cannot start twice."⟩, ?_⟩, ?_, rfl⟩
  · intro hmem
    rcases List.mem_append.mp hmem with hmem | hmem
    · exact callSetupDaemon_notin_preLock platform hmem
    · simp at hmem
  · exact List.mem_append_right _ (by simp)
  · exact List.mem_append_right _ (by simp)

/-- C10: only a lock failure whose text is exactly `ALREADY_RUNNING` takes
the prompt-and-exit-1 path; every other lock failure is re-thrown out of
`app()` with no prompt, no exit and no daemon start. -/
theorem lock_error_rethrown (platform e : String) (h : e ≠ "ALREADY_RUNNING") :
    (appStartup platform (.err e)).2 = some e
    ∧ (∀ p, Effect.showPrompt p ∉ (appStartup platform (.err e)).1)
    ∧ (∀ c, Effect.exitProcess c ∉ (appStartup platform (.err e)).1)
    ∧ Effect.callSetupDaemon ∉ (appStartup platform (.err e)).1 := by
  have hstep : appStartup platform (.err e) = (preLockEffects platform, some e) := by
    simp only [appStartup]
    rw [if_neg h]
  rw [hstep]
  exact ⟨rfl, fun p => showPrompt_notin_preLock platform p,
    fun c => exitProcess_notin_preLock platform c,
    callSetupDaemon_notin_preLock platform⟩

/-- Witness for `lock_error_rethrown` at a concrete non-matching lock
failure. -/
theorem lock_error_rethrown_witness :
    (appStartup "darwin" (.err "EPERM")).2 = some "EPERM" :=
  (lock_error_rethrown "darwin" "EPERM" (by decide)).1

/-- Recognizer for log-store effects, used to project the log entries out
of an effect trace. -/
def isLogEffect : Effect → Bool
  | .logEntry _ _ => true
  | _ => false

/-- The `invalid-config-pass` handler of `src/app.js`: insert the error log
entry `{level: 'error', msg: 'Invalid Rclone password'}`, then show the
blocking `promptError` whose acknowledgment callback exits the process with
code 1. -/
def onInvalidConfigPass (message : String) : List Effect :=
  [Effect.logEntry "error" "Invalid Rclone password",
   Effect.showPrompt ⟨"Invalid Rclone password", message⟩,
   Effect.exitProcess 1]

/-- C2 counterexample: the log entry appended by the invalid-credentials
handler has message text `Invalid Rclone password`, not `Invalid
credentials` as the spec's mapping table states. -/
theorem invalid_credentials_msg_cex :
    Effect.logEntry "error" "Invalid credentials" ∉ onInvalidConfigPass "x"
    ∧ Effect.logEntry "error" "Invalid Rclone password" ∈ onInvalidConfigPass "x" := by
  constructor
  · decide
  · decide

/-- C2 (amended): for every invalid-credentials event, exactly one log entry
with level `error` and message text `Invalid Rclone password` is appended,
a blocking error prompt is presented, the process terminates with exit code
1 upon acknowledgment (the exit is the final effect, after the prompt), and
no daemon-stop attempt occurs. -/
theorem invalid_credentials_path (message : String) :
    (onInvalidConfigPass message).filter isLogEffect =
      [Effect.logEntry "error" "Invalid Rclone password"]
    ∧ Effect.showPrompt ⟨"Invalid Rclone password", message⟩ ∈
        onInvalidConfigPass message
    ∧ (onInvalidConfigPass message).getLast? = some (Effect.exitProcess 1)
    ∧ Effect.callStopDaemon ∉ onInvalidConfigPass message := by
  refine ⟨rfl, ?_, rfl, ?_⟩
  · simp [onInvalidConfigPass]
  · simp [onInvalidConfigPass]

end RcloneTray
